import Mathlib

/-!
# Verification of the ruidmap client-side search/filter/sort engine

This file is a shallow embedding of the search/filter/sort logic of
`useTaskSearch` and `useProjectSearch` (src/hooks/useSearch.ts) together with
the data model from src/types/index.ts, and proofs of the specified
properties of that engine.

Modelling conventions:

* Timestamp strings (`created_at`, `updated_at`, `due_date`) are consumed by
  the engine only through `new Date(s).getTime()` and `Date` comparisons, so
  they are modelled directly as `Int` milliseconds on the local timeline
  (`due_date?: string` becomes `Option Int`, `none` standing for an
  absent/falsy due date).  Day arithmetic (`setDate`, `getDay`,
  `toDateString`) is modelled with uniform 86 400 000 ms days.
* The TypeScript union types `TaskStatus`, `TaskPriority` and the filter
  fields are erased at runtime; the engine compares them as strings and is
  defensive about unrecognized priorities (`priorityOrder[p] || 0`), so they
  are modelled as `String`.
* `localeCompare` is a locale-dependent three-way string comparison; it is
  modelled as the three-way comparison of the lexicographic order on
  `String`.
* ECMAScript requires `Array.prototype.sort` to be stable, and for a
  consistent comparator the stable sorted permutation is unique, so the sort
  is modelled by the structural stable `List.insertionSort` on the relation
  `comparator a b ≤ 0`.
-/

namespace RuidMap

/-- `Subtask` record from src/types/index.ts. -/
structure Subtask where
  id : Int
  title : String
  completed : Bool
  created_at : Int
deriving DecidableEq

/-- `Comment` record from src/types/index.ts. -/
structure Comment where
  id : Int
  text : String
  author : String
  created_at : Int
deriving DecidableEq

/-- `Attachment` record from src/types/index.ts. -/
structure Attachment where
  id : Int
  filename : String
  file_path : String
  file_size : Int
  mime_type : String
  created_at : Int
deriving DecidableEq

/-- `Task` record from src/types/index.ts. -/
structure Task where
  id : Int
  project_id : Int
  title : String
  description : String
  status : String
  priority : String
  created_at : Int
  updated_at : Int
  due_date : Option Int
  tags : List String
  subtasks : List Subtask
  comments : List Comment
  time_spent : Int
  estimated_time : Option Int
  attachments : List Attachment
deriving DecidableEq

/-- `TaskTemplate` record from src/types/index.ts. -/
structure TaskTemplate where
  id : Int
  name : String
  title_template : String
  description_template : String
  default_priority : String
  default_tags : List String
  default_estimated_time : Option Int
deriving DecidableEq

/-- `ProjectSettings` record from src/types/index.ts. -/
structure ProjectSettings where
  task_templates : List TaskTemplate
  default_priority : String
  auto_archive_completed : Bool
  default_description : Option String
  default_tags : List String
  default_estimated_time : Option Int
deriving DecidableEq

/-- `Project` record from src/types/index.ts. -/
structure Project where
  id : Int
  name : String
  description : Option String
  color : Option String
  icon : Option String
  created_at : Int
  updated_at : Int
  is_active : Bool
  task_count : Int
  settings : ProjectSettings
deriving DecidableEq

/-- `SearchFilterState` from src/components/ui/SearchFilter.tsx.  All fields
are runtime strings; the closed unions are TypeScript-level only. -/
structure SearchFilterState where
  searchTerm : String
  statusFilter : String
  priorityFilter : String
  tagFilter : String
  dueDateFilter : String
  sortBy : String
  sortOrder : String
deriving DecidableEq

/-- `needle.isPrefixOfChars hay`: character-list prefix test. -/
def isPrefixOfChars : List Char → List Char → Bool
  | [], _ => true
  | _ :: _, [] => false
  | a :: as, b :: bs => a = b && isPrefixOfChars as bs

/-- `containsChars needle hay`: `needle` occurs as a contiguous run in
`hay`. -/
def containsChars (needle : List Char) : List Char → Bool
  | [] => isPrefixOfChars needle []
  | c :: rest => isPrefixOfChars needle (c :: rest) || containsChars needle rest

/-- Model of JavaScript `s.includes(sub)` (substring containment). -/
def strIncludes (s sub : String) : Bool :=
  containsChars sub.data s.data

/-- Model of JavaScript `s.toLowerCase()`: per-character lower-casing. -/
def strToLower (s : String) : String :=
  String.mk (s.data.map Char.toLower)

/-- Model of `a.localeCompare(b)`: three-way comparison realised with the
lexicographic order on `String`. -/
def strCompare (a b : String) : Int :=
  if a < b then -1 else if b < a then 1 else 0

/-- Milliseconds in one (uniform) day. -/
def dayMs : Int := 86400000

/-- Model of `new Date(now.getFullYear(), now.getMonth(), now.getDate())`:
truncate a timestamp to the start of its local day. -/
def startOfDay (t : Int) : Int :=
  Int.fdiv t dayMs * dayMs

/-- Model of `Date.prototype.getDay` (0 = Sunday .. 6 = Saturday) for a
timestamp; epoch day 0 (1970-01-01) was a Thursday. -/
def getDay (t : Int) : Int :=
  Int.emod (Int.fdiv t dayMs + 4) 7

/-- Civil date `(year, month 1..12, day 1..31)` of an epoch day number
(standard proleptic-Gregorian conversion). -/
def civilFromDays (z : Int) : Int × Int × Int :=
  let z := z + 719468
  let era := Int.fdiv z 146097
  let doe := z - era * 146097
  let yoe := Int.fdiv (doe - Int.fdiv doe 1460 + Int.fdiv doe 36524 - Int.fdiv doe 146096) 365
  let doy := doe - (365 * yoe + Int.fdiv yoe 4 - Int.fdiv yoe 100)
  let mp := Int.fdiv (5 * doy + 2) 153
  let d := doy - Int.fdiv (153 * mp + 2) 5 + 1
  let m := mp + (if mp < 10 then 3 else -9)
  (yoe + era * 400 + (if m ≤ 2 then 1 else 0), m, d)

/-- Epoch day number of a civil date; months outside 1..12 normalize as in
the JavaScript `Date` constructor (month 13 = January of the next year). -/
def daysFromCivil (y m d : Int) : Int :=
  let y := y - (if m ≤ 2 then 1 else 0)
  let era := Int.fdiv y 400
  let yoe := y - era * 400
  let mp := Int.emod (m + 9) 12
  let doy := Int.fdiv (153 * mp + 2) 5 + d - 1
  let doe := yoe * 365 + Int.fdiv yoe 4 - Int.fdiv yoe 100 + doy
  era * 146097 + doe - 719468

/-- Model of `new Date(now.getFullYear(), now.getMonth(), 1)`. -/
def monthStart (now : Int) : Int :=
  let c := civilFromDays (Int.fdiv now dayMs)
  daysFromCivil c.1 c.2.1 1 * dayMs

/-- Model of `new Date(now.getFullYear(), now.getMonth() + 1, 0)` (midnight
of the last day of the current month). -/
def monthEnd (now : Int) : Int :=
  let c := civilFromDays (Int.fdiv now dayMs)
  (daysFromCivil c.1 (c.2.1 + 1) 1 - 1) * dayMs

/-- Text-search predicate of `useTaskSearch` (the caller passes the already
lower-cased search term): title, description or any tag contains the term. -/
def matchesSearch (term : String) (t : Task) : Bool :=
  strIncludes (strToLower t.title) term
    || strIncludes (strToLower t.description) term
    || t.tags.any fun tag => strIncludes (strToLower tag) term

/-- Due-date bucket predicate of `useTaskSearch` (lines 65–81): tasks with
no due date are rejected; otherwise the bucket named by `dueDateFilter` is
tested against the evaluation moment `now`. -/
def dueDatePred (f : SearchFilterState) (now : Int) (t : Task) : Bool :=
  match t.due_date with
  | none => false
  | some due =>
    let today := startOfDay now
    let thisWeekStart := today - getDay today * dayMs
    let thisWeekEnd := thisWeekStart + 6 * dayMs
    if f.dueDateFilter = "overdue" then decide (due < today)
    else if f.dueDateFilter = "today" then decide (startOfDay due = today)
    else if f.dueDateFilter = "this-week" then
      decide (thisWeekStart ≤ due) && decide (due ≤ thisWeekEnd)
    else if f.dueDateFilter = "this-month" then
      decide (monthStart now ≤ due) && decide (due ≤ monthEnd now)
    else true

/-- Filtering stage of `useTaskSearch` (lines 27–82): the five conditional
`Array.prototype.filter` passes, in source order. -/
def filterTasks (f : SearchFilterState) (now : Int) (tasks : List Task) : List Task :=
  let s1 := if f.searchTerm ≠ "" then
      tasks.filter (matchesSearch (strToLower f.searchTerm)) else tasks
  let s2 := if f.statusFilter ≠ "all" then
      s1.filter (fun t => decide (t.status = f.statusFilter)) else s1
  let s3 := if f.priorityFilter ≠ "all" then
      s2.filter (fun t => decide (t.priority = f.priorityFilter)) else s2
  let s4 := if f.tagFilter ≠ "all" then
      s3.filter (fun t => decide (f.tagFilter ∈ t.tags)) else s3
  if f.dueDateFilter ≠ "all" then s4.filter (dueDatePred f now) else s4

/-- The priority ranking `{ high: 3, medium: 2, low: 1 }[p] || 0`. -/
def priorityOrder (p : String) : Int :=
  if p = "high" then 3 else if p = "medium" then 2
  else if p = "low" then 1 else 0

/-- The `switch (searchFilters.sortBy)` comparator body of `useTaskSearch`
(lines 88–109), before the direction is applied. -/
def taskCompareBase (sortBy : String) (a b : Task) : Int :=
  if sortBy = "title" then strCompare a.title b.title
  else if sortBy = "priority" then priorityOrder a.priority - priorityOrder b.priority
  else if sortBy = "due-date" then
    match a.due_date, b.due_date with
    | none, none => 0
    | none, some _ => 1
    | some _, none => -1
    | some x, some y => x - y
  else if sortBy = "updated" then a.updated_at - b.updated_at
  else a.created_at - b.created_at

/-- The full comparator of `useTaskSearch`: ascending returns the switch
result, anything else returns its negation (line 111). -/
def taskComparison (f : SearchFilterState) (a b : Task) : Int :=
  if f.sortOrder = "asc" then taskCompareBase f.sortBy a b
  else - taskCompareBase f.sortBy a b

/-- The non-strict order induced by the task comparator. -/
def taskLE (f : SearchFilterState) (a b : Task) : Prop :=
  taskComparison f a b ≤ 0

instance (f : SearchFilterState) : DecidableRel (taskLE f) :=
  fun a b => inferInstanceAs (Decidable (taskComparison f a b ≤ 0))

/-- Sorting stage of `useTaskSearch`: the stable `Array.prototype.sort` on
the comparator (modelled as the stable insertion sort). -/
def sortTasks (f : SearchFilterState) (l : List Task) : List Task :=
  List.insertionSort (taskLE f) l

/-- The whole `filteredTasks` computation of `useTaskSearch`: filter stages
followed by the comparator sort.  `now` is the clock value the due-date
filter reads via `new Date()`. -/
def applyTaskSearch (tasks : List Task) (f : SearchFilterState) (now : Int) : List Task :=
  sortTasks f (filterTasks f now tasks)

/-- The initial / cleared `SearchFilterState` of `useTaskSearch`. -/
def defaultFilters : SearchFilterState :=
  { searchTerm := ""
    statusFilter := "all"
    priorityFilter := "all"
    tagFilter := "all"
    dueDateFilter := "all"
    sortBy := "created"
    sortOrder := "desc" }

/-- The sorting stage applied to the input paired with its position, with
the comparator reading only the task component; used to state stability. -/
def sortTasksIndexed (f : SearchFilterState) (l : List Task) : List (Nat × Task) :=
  List.insertionSort (fun a b => taskLE f a.2 b.2) l.enum

/-- Text-search predicate of `useProjectSearch` (lines 170–173): name, or
description when present, contains the lower-cased term. -/
def matchesProjectSearch (term : String) (p : Project) : Bool :=
  strIncludes (strToLower p.name) term
    || match p.description with
       | some d => strIncludes (strToLower d) term
       | none => false

/-- The `switch (searchFilters.sortBy)` comparator body of
`useProjectSearch` (lines 180–191): only `title` and `updated` have cases;
everything else falls through to the `created` default. -/
def projectCompareBase (sortBy : String) (a b : Project) : Int :=
  if sortBy = "title" then strCompare a.name b.name
  else if sortBy = "updated" then a.updated_at - b.updated_at
  else a.created_at - b.created_at

/-- The full comparator of `useProjectSearch` (line 193). -/
def projectComparison (f : SearchFilterState) (a b : Project) : Int :=
  if f.sortOrder = "asc" then projectCompareBase f.sortBy a b
  else - projectCompareBase f.sortBy a b

/-- The non-strict order induced by the project comparator. -/
def projectLE (f : SearchFilterState) (a b : Project) : Prop :=
  projectComparison f a b ≤ 0

instance (f : SearchFilterState) : DecidableRel (projectLE f) :=
  fun a b => inferInstanceAs (Decidable (projectComparison f a b ≤ 0))

/-- The whole `filteredProjects` computation of `useProjectSearch`
(lines 164–197): the text filter followed by the comparator sort. -/
def applyProjectSearch (projects : List Project) (f : SearchFilterState) : List Project :=
  let s1 := if f.searchTerm ≠ "" then
      projects.filter (matchesProjectSearch (strToLower f.searchTerm)) else projects
  List.insertionSort (projectLE f) s1

/-! ## Helper lemmas -/

/-- Membership through one conditional filter stage. -/
theorem mem_if_filter {α : Type} {c : Prop} [Decidable c] {p : α → Bool}
    {l : List α} {t : α} :
    t ∈ (if c then l.filter p else l) ↔ t ∈ l ∧ (c → p t = true) := by
  split_ifs with h <;> simp [List.mem_filter, h]

/-- Membership in the output of the filtering stage is the conjunction of
membership in the input and every active predicate. -/
theorem mem_filterTasks {f : SearchFilterState} {now : Int} {tasks : List Task}
    {t : Task} :
    t ∈ filterTasks f now tasks ↔ t ∈ tasks
      ∧ (f.searchTerm ≠ "" → matchesSearch (strToLower f.searchTerm) t = true)
      ∧ (f.statusFilter ≠ "all" → t.status = f.statusFilter)
      ∧ (f.priorityFilter ≠ "all" → t.priority = f.priorityFilter)
      ∧ (f.tagFilter ≠ "all" → f.tagFilter ∈ t.tags)
      ∧ (f.dueDateFilter ≠ "all" → dueDatePred f now t = true) := by
  unfold filterTasks
  simp only [mem_if_filter, decide_eq_true_eq]
  tauto

/-- Membership in the full task pipeline output. -/
theorem mem_applyTaskSearch {f : SearchFilterState} {now : Int}
    {tasks : List Task} {t : Task} :
    t ∈ applyTaskSearch tasks f now ↔ t ∈ tasks
      ∧ (f.searchTerm ≠ "" → matchesSearch (strToLower f.searchTerm) t = true)
      ∧ (f.statusFilter ≠ "all" → t.status = f.statusFilter)
      ∧ (f.priorityFilter ≠ "all" → t.priority = f.priorityFilter)
      ∧ (f.tagFilter ≠ "all" → f.tagFilter ∈ t.tags)
      ∧ (f.dueDateFilter ≠ "all" → dueDatePred f now t = true) := by
  unfold applyTaskSearch sortTasks
  rw [List.mem_insertionSort]
  exact mem_filterTasks

theorem strCompare_nonpos {a b : String} : strCompare a b ≤ 0 ↔ a ≤ b := by
  unfold strCompare
  split_ifs with h1 h2
  · simp [le_of_lt h1]
  · constructor
    · intro h; omega
    · intro h; exact absurd h (not_le.mpr h2)
  · have hab : a = b := le_antisymm (not_lt.mp h2) (not_lt.mp h1)
    simp [hab]

theorem strCompare_neg (a b : String) : strCompare b a = - strCompare a b := by
  unfold strCompare
  rcases lt_trichotomy a b with h | h | h
  · simp [h, lt_asymm h]
  · simp [h]
  · simp [h, lt_asymm h]

/-- The task comparator is antisymmetric in the exact sense
`cmp b a = - cmp a b` (every branch of the switch is). -/
theorem taskCompareBase_neg (k : String) (a b : Task) :
    taskCompareBase k b a = - taskCompareBase k a b := by
  unfold taskCompareBase
  split_ifs
  · exact strCompare_neg a.title b.title
  · omega
  · rcases a.due_date with _ | x <;> rcases b.due_date with _ | y <;> simp
  · omega
  · omega

/-- The non-strict relation induced by the switch comparator is transitive. -/
theorem taskCompareBase_trans {k : String} {a b c : Task}
    (h1 : taskCompareBase k a b ≤ 0) (h2 : taskCompareBase k b c ≤ 0) :
    taskCompareBase k a c ≤ 0 := by
  unfold taskCompareBase at h1 h2 ⊢
  split_ifs at h1 h2 ⊢
  · rw [strCompare_nonpos] at h1 h2 ⊢; exact le_trans h1 h2
  · omega
  · rcases ha : a.due_date with _ | x <;> rcases hb : b.due_date with _ | y <;>
      rcases hc : c.due_date with _ | z <;>
      simp only [ha, hb, hc] at h1 h2 ⊢ <;> simp_all <;> omega
  · omega
  · omega

theorem taskComparison_trans {f : SearchFilterState} {a b c : Task}
    (h1 : taskComparison f a b ≤ 0) (h2 : taskComparison f b c ≤ 0) :
    taskComparison f a c ≤ 0 := by
  unfold taskComparison at h1 h2 ⊢
  split_ifs at h1 h2 ⊢
  · exact taskCompareBase_trans h1 h2
  · have ha : taskCompareBase f.sortBy c b ≤ 0 := by
      rw [taskCompareBase_neg]; omega
    have hb : taskCompareBase f.sortBy b a ≤ 0 := by
      rw [taskCompareBase_neg]; omega
    have hca := taskCompareBase_trans ha hb
    rw [taskCompareBase_neg] at hca
    omega

theorem taskLE_total (f : SearchFilterState) (a b : Task) :
    taskLE f a b ∨ taskLE f b a := by
  unfold taskLE taskComparison
  have := taskCompareBase_neg f.sortBy a b
  split_ifs <;> omega

/-- The sorting stage produces a list sorted under the comparator order. -/
theorem sorted_sortTasks (f : SearchFilterState) (l : List Task) :
    (sortTasks f l).Sorted (taskLE f) := by
  haveI : IsTotal Task (taskLE f) := ⟨taskLE_total f⟩
  haveI : IsTrans Task (taskLE f) := ⟨fun _ _ _ h1 h2 => taskComparison_trans h1 h2⟩
  exact List.sorted_insertionSort (taskLE f) l

theorem orderedInsert_congr {α : Type} {r s : α → α → Prop}
    [DecidableRel r] [DecidableRel s]
    (h : ∀ a b, r a b ↔ s a b) (x : α) (l : List α) :
    l.orderedInsert r x = l.orderedInsert s x := by
  induction l with
  | nil => rfl
  | cons y ys ih =>
    simp only [List.orderedInsert]
    by_cases hxy : r x y
    · rw [if_pos hxy, if_pos ((h x y).mp hxy)]
    · rw [if_neg hxy, if_neg (fun hs => hxy ((h x y).mpr hs)), ih]

theorem insertionSort_congr {α : Type} {r s : α → α → Prop}
    [DecidableRel r] [DecidableRel s]
    (h : ∀ a b, r a b ↔ s a b) (l : List α) :
    l.insertionSort r = l.insertionSort s := by
  induction l with
  | nil => rfl
  | cons x xs ih => simp only [List.insertionSort, ih, orderedInsert_congr h]

/-! ## Concrete fixtures for counterexamples and witnesses -/

/-- A task with the given id, creation/update timestamp, due date, priority
and tags; all other fields neutral. -/
def mkTask (id created : Int) (due : Option Int) (prio : String)
    (tags : List String) : Task :=
  { id := id, project_id := 1, title := "", description := "", status := "todo",
    priority := prio, created_at := created, updated_at := created,
    due_date := due, tags := tags, subtasks := [], comments := [],
    time_spent := 0, estimated_time := none, attachments := [] }

/-- Due-date sort, descending direction, no filters. -/
def specDueDesc : SearchFilterState :=
  { defaultFilters with sortBy := "due-date", sortOrder := "desc" }

/-- Only the `this-week` due-date bucket active. -/
def specThisWeek : SearchFilterState :=
  { defaultFilters with dueDateFilter := "this-week" }

/-- Only the `overdue` due-date bucket active. -/
def specOverdue : SearchFilterState :=
  { defaultFilters with dueDateFilter := "overdue" }

/-- Priority sort, ascending direction, no filters. -/
def specPrioAsc : SearchFilterState :=
  { defaultFilters with sortBy := "priority", sortOrder := "asc" }

def cxDuedTask : Task := mkTask 1 0 (some 0) "low" []

def cxNoDueTask : Task := mkTask 2 0 none "low" []

/-- Sunday-based start of the week containing the timestamp, as the source
computes it (`today` minus `today.getDay()` days). -/
def weekStart (now : Int) : Int :=
  startOfDay now - getDay (startOfDay now) * dayMs

/-- Every task without a due date sits after every task with one. -/
def noDueDatesLast (l : List Task) : Prop :=
  ∀ i j : Fin l.length, (l.get i).due_date = none →
    (l.get j).due_date ≠ none → j < i

/-- Every task without a due date sits before every task with one. -/
def noDueDatesFirst (l : List Task) : Prop :=
  ∀ i j : Fin l.length, (l.get i).due_date = none →
    (l.get j).due_date ≠ none → i < j

instance (l : List Task) : Decidable (noDueDatesLast l) := by
  unfold noDueDatesLast; infer_instance

instance (l : List Task) : Decidable (noDueDatesFirst l) := by
  unfold noDueDatesFirst; infer_instance

/-! ## Claim theorems -/

/-- C1 (counterexample): with `sortBy = 'due-date'` and `sortOrder = 'desc'`,
a task with a due date and one without leave the pipeline with the
no-due-date task first, so the no-due-date-last tie-break does not hold for
the descending direction. -/
theorem dueDate_tiebreak_cx :
    specDueDesc.sortBy = "due-date" ∧ specDueDesc.sortOrder = "desc"
    ∧ ¬ noDueDatesLast (applyTaskSearch [cxDuedTask, cxNoDueTask] specDueDesc 0) := by
  decide

/-- C1 (amended): when `sortBy = 'due-date'`, the ascending direction places
every task with no due date after every task with one; the descending
direction negates the whole comparator, tie-break included, and places every
task with no due date before every task with one. -/
theorem dueDate_tiebreak_by_direction (tasks : List Task) (f : SearchFilterState)
    (now : Int) (h : f.sortBy = "due-date") :
    (f.sortOrder = "asc" → noDueDatesLast (applyTaskSearch tasks f now))
    ∧ (f.sortOrder = "desc" → noDueDatesFirst (applyTaskSearch tasks f now)) := by
  have hs : (applyTaskSearch tasks f now).Sorted (taskLE f) :=
    sorted_sortTasks f (filterTasks f now tasks)
  constructor
  · intro hasc i j hi hj
    rcases Option.ne_none_iff_exists'.mp hj with ⟨y, hy⟩
    by_contra hij
    rcases lt_or_eq_of_le (not_lt.mp hij) with hlt | heq
    · have hrel := List.Sorted.rel_get_of_lt hs hlt
      unfold taskLE at hrel
      simp only [List.get_eq_getElem] at hi hy hrel
      simp [taskComparison, taskCompareBase, h, hasc, hi, hy] at hrel
    · rw [heq] at hi
      rw [hi] at hy
      exact Option.noConfusion hy
  · intro hdesc i j hi hj
    rcases Option.ne_none_iff_exists'.mp hj with ⟨y, hy⟩
    by_contra hij
    rcases lt_or_eq_of_le (not_lt.mp hij) with hlt | heq
    · have hrel := List.Sorted.rel_get_of_lt hs hlt
      unfold taskLE at hrel
      simp only [List.get_eq_getElem] at hi hy hrel
      simp [taskComparison, taskCompareBase, h, hdesc, hi, hy] at hrel
    · rw [heq] at hy
      rw [hi] at hy
      exact Option.noConfusion hy

/-- C1 (witness for the amended theorem). -/
theorem dueDate_tiebreak_by_direction_witness :
    (specDueDesc.sortOrder = "asc" →
      noDueDatesLast (applyTaskSearch [cxDuedTask, cxNoDueTask] specDueDesc 0))
    ∧ (specDueDesc.sortOrder = "desc" →
      noDueDatesFirst (applyTaskSearch [cxDuedTask, cxNoDueTask] specDueDesc 0)) :=
  dueDate_tiebreak_by_direction [cxDuedTask, cxNoDueTask] specDueDesc 0 (by decide)

/-- C2: the filtering stage is a conjunction: a record is in the output of
the pipeline exactly when it is in the input and satisfies every active
predicate (non-empty search term, status filter, priority filter, tag
filter, due-date bucket filter). -/
theorem filter_conjunction (tasks : List Task) (f : SearchFilterState)
    (now : Int) (t : Task) :
    t ∈ applyTaskSearch tasks f now ↔ t ∈ tasks
      ∧ (f.searchTerm ≠ "" → matchesSearch (strToLower f.searchTerm) t = true)
      ∧ (f.statusFilter ≠ "all" → t.status = f.statusFilter)
      ∧ (f.priorityFilter ≠ "all" → t.priority = f.priorityFilter)
      ∧ (f.tagFilter ≠ "all" → f.tagFilter ∈ t.tags)
      ∧ (f.dueDateFilter ≠ "all" → dueDatePred f now t = true) :=
  mem_applyTaskSearch

/-- The `this-week` bucket predicate holds exactly on due dates between the
Sunday week start and the start of the following Saturday (inclusive). -/
theorem dueDatePred_thisWeek {f : SearchFilterState}
    (hf : f.dueDateFilter = "this-week") {now : Int} {t : Task} :
    dueDatePred f now t = true ↔
      ∃ due, t.due_date = some due ∧ weekStart now ≤ due
        ∧ due ≤ weekStart now + 6 * dayMs := by
  unfold dueDatePred
  rcases h : t.due_date with _ | due <;> simp [h, hf, weekStart]

/-- C3 (counterexample): `now` is Monday 1970-01-05; the task is due on the
Saturday of that same Sunday-based week at 01:00, inside the week's 7 days,
yet the `this-week` filter drops it (the code's upper bound is the start of
Saturday, not the end of Saturday). -/
theorem thisWeek_cx :
    (mkTask 1 0 (some (9 * dayMs + 3600000)) "low" []).due_date
        = some (9 * dayMs + 3600000)
    ∧ getDay (weekStart (4 * dayMs)) = 0
    ∧ weekStart (4 * dayMs) ≤ 9 * dayMs + 3600000
    ∧ 9 * dayMs + 3600000 < weekStart (4 * dayMs) + 7 * dayMs
    ∧ applyTaskSearch [mkTask 1 0 (some (9 * dayMs + 3600000)) "low" []]
        specThisWeek (4 * dayMs) = [] := by
  decide

/-- C3 (amended): with only the `this-week` bucket active, a task is kept
exactly when it has a due date between the Sunday-based week start and the
start (midnight) of that week's Saturday, both inclusive; due dates later on
Saturday fall outside the bucket. -/
theorem thisWeek_kept_iff (tasks : List Task) (now : Int) (t : Task) :
    t ∈ applyTaskSearch tasks specThisWeek now ↔
      t ∈ tasks ∧ ∃ due, t.due_date = some due
        ∧ weekStart now ≤ due ∧ due ≤ weekStart now + 6 * dayMs := by
  rw [mem_applyTaskSearch]
  have hdp := @dueDatePred_thisWeek specThisWeek rfl now t
  constructor
  · rintro ⟨ht, -, -, -, -, h6⟩
    exact ⟨ht, hdp.mp (h6 (by decide))⟩
  · rintro ⟨ht, hdue⟩
    refine ⟨ht, ?_, ?_, ?_, ?_, fun _ => hdp.mpr hdue⟩ <;>
      exact fun hc => absurd rfl hc

/-- C4 (counterexample): with the `overdue` bucket active, the same items
and specification produce different outputs at two evaluation moments, so
the computation is not determined by `(items, spec)` alone. -/
theorem clock_dependence_cx :
    applyTaskSearch [cxDuedTask] specOverdue 0
      ≠ applyTaskSearch [cxDuedTask] specOverdue dayMs := by
  decide

/-- C4 (amended): the computation is deterministic in `(items, spec, now)`,
and the clock enters only through the due-date bucket filter: whenever
`dueDateFilter = 'all'`, two evaluations at different moments agree. -/
theorem clock_independent_when_no_bucket (tasks : List Task)
    (f : SearchFilterState) (now1 now2 : Int) (h : f.dueDateFilter = "all") :
    applyTaskSearch tasks f now1 = applyTaskSearch tasks f now2 := by
  unfold applyTaskSearch
  congr 1
  unfold filterTasks
  simp [h]

/-- C4 (witness for the amended theorem). -/
theorem clock_independent_when_no_bucket_witness :
    applyTaskSearch [cxDuedTask] defaultFilters 0
      = applyTaskSearch [cxDuedTask] defaultFilters dayMs :=
  clock_independent_when_no_bucket [cxDuedTask] defaultFilters 0 dayMs (by decide)

/-- C5: the sort is stable for every sort key and both directions.  Pairing
each input record with its position (`l.enum`), any two records in input
order whose comparator value is `0` keep that order in the sorted output,
and the position-indexed sort projects back onto the actual sorting stage. -/
theorem sort_stable (f : SearchFilterState) (l : List Task) (i j : Nat)
    (a b : Task) (hsub : List.Sublist [(i, a), (j, b)] l.enum)
    (heq : taskComparison f a b = 0) :
    List.Sublist [(i, a), (j, b)] (sortTasksIndexed f l)
    ∧ (sortTasksIndexed f l).map Prod.snd = sortTasks f l := by
  constructor
  · unfold sortTasksIndexed
    exact List.pair_sublist_insertionSort (le_of_eq heq) hsub
  · unfold sortTasksIndexed sortTasks
    rw [List.map_insertionSort (fun p q : Nat × Task => taskLE f p.2 q.2) (taskLE f)
      Prod.snd l.enum (fun p _ q _ => Iff.rfl)]
    rw [show l.enum = List.enumFrom 0 l from rfl, List.enumFrom_map_snd]

def stTaskA : Task := mkTask 1 5 none "low" []

def stTaskB : Task := mkTask 2 5 none "high" []

/-- C5 (witness): two tasks with equal creation timestamps under the default
created/descending comparator. -/
theorem sort_stable_witness :
    List.Sublist [(0, stTaskA), (1, stTaskB)]
      (sortTasksIndexed defaultFilters [stTaskA, stTaskB])
    ∧ (sortTasksIndexed defaultFilters [stTaskA, stTaskB]).map Prod.snd
        = sortTasks defaultFilters [stTaskA, stTaskB] :=
  sort_stable defaultFilters [stTaskA, stTaskB] 0 1 stTaskA stTaskB
    (List.Sublist.refl _) (by decide)

/-- C6: the default specification (empty search term, all filters `all`,
sort by `created` descending) drops nothing — the output is a permutation
of the input — and is ordered by creation timestamp descending. -/
theorem default_spec_behavior (tasks : List Task) (now : Int) :
    (applyTaskSearch tasks defaultFilters now).Perm tasks
    ∧ (applyTaskSearch tasks defaultFilters now).Sorted
        (fun a b => b.created_at ≤ a.created_at) := by
  have hfil : filterTasks defaultFilters now tasks = tasks := by
    unfold filterTasks
    simp [defaultFilters]
  unfold applyTaskSearch sortTasks
  rw [hfil]
  constructor
  · exact List.perm_insertionSort _ _
  · have hs := sorted_sortTasks defaultFilters tasks
    refine List.Pairwise.imp ?_ hs
    intro a b hab
    have hcmp : taskComparison defaultFilters a b
        = -(a.created_at - b.created_at) := rfl
    unfold taskLE at hab
    rw [hcmp] at hab
    omega

/-- C7: with `sortBy = 'priority'`, the comparator realizes the fixed total
order high(3) > medium(2) > low(1) with unrecognized priorities ranked 0,
and ascending order on three tasks with priorities high, medium, low yields
them as low, medium, high. -/
theorem priority_comparator_order (f : SearchFilterState) (a b c : Task)
    (hf : f.sortBy = "priority") (ho : f.sortOrder = "asc")
    (ha : a.priority = "high") (hb : b.priority = "medium")
    (hc : c.priority = "low") :
    priorityOrder "high" = 3 ∧ priorityOrder "medium" = 2
    ∧ priorityOrder "low" = 1
    ∧ (∀ p : String, p ≠ "high" → p ≠ "medium" → p ≠ "low" → priorityOrder p = 0)
    ∧ (∀ x y : Task, taskComparison f x y
        = priorityOrder x.priority - priorityOrder y.priority)
    ∧ sortTasks f [a, b, c] = [c, b, a] := by
  refine ⟨by decide, by decide, by decide, ?_, ?_, ?_⟩
  · intro p h1 h2 h3
    simp [priorityOrder, h1, h2, h3]
  · intro x y
    simp [taskComparison, taskCompareBase, hf, ho]
  · unfold sortTasks
    simp [List.insertionSort, List.orderedInsert, taskLE, taskComparison,
      taskCompareBase, hf, ho, ha, hb, hc, priorityOrder]

def prTaskH : Task := mkTask 1 0 none "high" []

def prTaskM : Task := mkTask 2 0 none "medium" []

def prTaskL : Task := mkTask 3 0 none "low" []

/-- C7 (witness): concrete high/medium/low tasks under the ascending
priority specification. -/
theorem priority_comparator_order_witness :
    priorityOrder "high" = 3 ∧ priorityOrder "medium" = 2
    ∧ priorityOrder "low" = 1
    ∧ (∀ p : String, p ≠ "high" → p ≠ "medium" → p ≠ "low" → priorityOrder p = 0)
    ∧ (∀ x y : Task, taskComparison specPrioAsc x y
        = priorityOrder x.priority - priorityOrder y.priority)
    ∧ sortTasks specPrioAsc [prTaskH, prTaskM, prTaskL]
        = [prTaskL, prTaskM, prTaskH] :=
  priority_comparator_order specPrioAsc prTaskH prTaskM prTaskL
    rfl rfl rfl rfl rfl

/-- C9: in the project search, the comparator switch has no `priority` or
`due-date` case, so those sort keys fall through to the `created` default:
the full pipeline output is identical to sorting by `created`, for every
project list and either direction. -/
theorem project_sort_fallthrough (projects : List Project)
    (f : SearchFilterState)
    (h : f.sortBy = "priority" ∨ f.sortBy = "due-date") :
    applyProjectSearch projects f
      = applyProjectSearch projects { f with sortBy := "created" } := by
  unfold applyProjectSearch
  exact insertionSort_congr
    (fun a b => by
      unfold projectLE projectComparison projectCompareBase
      rcases h with h | h <;> rw [h] <;> simp) _

def mkProject (id created : Int) (name : String) : Project :=
  { id := id, name := name, description := none, color := none, icon := none,
    created_at := created, updated_at := created, is_active := true,
    task_count := 0,
    settings := { task_templates := [], default_priority := "medium",
                  auto_archive_completed := false, default_description := none,
                  default_tags := [], default_estimated_time := none } }

/-- Project search specification sorting by `priority`. -/
def specProjPrio : SearchFilterState :=
  { defaultFilters with sortBy := "priority" }

/-- C9 (witness). -/
theorem project_sort_fallthrough_witness :
    applyProjectSearch [mkProject 1 0 "alpha", mkProject 2 1 "beta"] specProjPrio
      = applyProjectSearch [mkProject 1 0 "alpha", mkProject 2 1 "beta"]
          { specProjPrio with sortBy := "created" } :=
  project_sort_fallthrough [mkProject 1 0 "alpha", mkProject 2 1 "beta"]
    specProjPrio (Or.inl (by decide))

/-- C10: the tag filter is exact, case-sensitive string membership: with the
tag filter active (and no other filter), a task is kept exactly when its
tags contain the filter value as an identical string; hence a task whose
tags contain no uppercase characters is excluded by any filter value that
has one. -/
theorem tag_filter_exact (tasks : List Task) (now : Int) (t : Task)
    (tagF : String) (h : tagF ≠ "all") :
    (t ∈ applyTaskSearch tasks { defaultFilters with tagFilter := tagF } now
      ↔ t ∈ tasks ∧ tagF ∈ t.tags)
    ∧ ((∀ tag ∈ t.tags, ∀ ch ∈ tag.data, ch.isUpper = false)
        → (∃ ch ∈ tagF.data, ch.isUpper = true)
        → t ∉ applyTaskSearch tasks { defaultFilters with tagFilter := tagF } now) := by
  have hiff : t ∈ applyTaskSearch tasks { defaultFilters with tagFilter := tagF } now
      ↔ t ∈ tasks ∧ tagF ∈ t.tags := by
    rw [mem_applyTaskSearch]
    constructor
    · rintro ⟨ht, -, -, -, h5, -⟩
      exact ⟨ht, h5 h⟩
    · rintro ⟨ht, htag⟩
      refine ⟨ht, ?_, ?_, ?_, fun _ => htag, ?_⟩ <;> exact fun hc => absurd rfl hc
  refine ⟨hiff, ?_⟩
  intro hlow hup hmem
  rcases hup with ⟨ch, hch, hchup⟩
  have htag := (hiff.mp hmem).2
  have hlo := hlow tagF htag ch hch
  rw [hchup] at hlo
  exact Bool.noConfusion hlo

def tagTask : Task := mkTask 1 0 none "low" ["work"]

/-- C10 (witness): lowercase tag `work` against filter value `Work`. -/
theorem tag_filter_exact_witness :
    (tagTask ∈ applyTaskSearch [tagTask]
        { defaultFilters with tagFilter := "Work" } 0
      ↔ tagTask ∈ [tagTask] ∧ "Work" ∈ tagTask.tags)
    ∧ ((∀ tag ∈ tagTask.tags, ∀ ch ∈ tag.data, ch.isUpper = false)
        → (∃ ch ∈ "Work".data, ch.isUpper = true)
        → tagTask ∉ applyTaskSearch [tagTask]
            { defaultFilters with tagFilter := "Work" } 0) :=
  tag_filter_exact [tagTask] 0 tagTask "Work" (by decide)

end RuidMap
